import Mathlib

/-!
Verification of the market-data refresh job
(`supabase/functions/refresh-market-data/index.ts`).

The job is embedded shallowly:

* `fetchMarketData` models the rate-limited fetch loop (lines 25-62 of the
  source).  The behaviour of the external Alpha Vantage API on one symbol is
  abstracted as a `FetchOutcome`: a well-formed quote (the guard on line 36
  succeeds and the price / change-percent strings parse), a response with no
  usable data (the `else` branch, line 48), or a request-level error (an
  exception caught on line 56).  The Lean function is total: totality models
  the fact that the `try`/`catch` absorbs every per-symbol failure.
* `fetchTrace` records the observable request/delay events of the same loop,
  for the rate-limit pacing property.
* `checkPriceAlerts` models the threshold alert evaluator (lines 64-95).
  JavaScript number semantics of the division on line 71 matter when the old
  price is zero, so the change computation is carried out in `JSNum`, finite
  rationals extended with the IEEE special values Infinity / -Infinity / NaN.
  (Finite arithmetic is modelled exactly over ℚ.)
* `refreshHandler` models the request handler (lines 97-234) from the point
  where the caller is authenticated: portfolio / symbol resolution, the
  batched read of current prices, the per-result loop (upsert, history
  insert, alert check), the audit insert and the response.  The notification
  message string (line 88) is not modelled; no claim depends on its text.
-/

namespace StockManagement

abbrev Symbol := String

/-- Outcome of the provider request for one symbol: a parsed quote, a
response without `Global Quote`/price data, or a thrown request-level
error (network failure, non-JSON body, ...). -/
inductive FetchOutcome where
  | ok (price : ℚ) (changePercent : ℚ)
  | noData
  | err
deriving DecidableEq, Repr

def FetchOutcome.isOk : FetchOutcome → Bool
  | .ok _ _ => true
  | .noData => false
  | .err => false

structure MarketDataUpdate where
  symbol : Symbol
  price : ℚ
  change_percent : ℚ
deriving DecidableEq, Repr

/-- The fetch loop of `fetchMarketData` (source lines 25-62): for each symbol
in order, a well-formed response pushes `{symbol, price, change_percent}`
onto the results; a no-data response and a thrown error both skip the
symbol and continue. -/
def fetchMarketData (env : Symbol → FetchOutcome) : List Symbol → List MarketDataUpdate
  | [] => []
  | s :: rest =>
    match env s with
    | .ok p c => ⟨s, p, c⟩ :: fetchMarketData env rest
    | .noData => fetchMarketData env rest
    | .err => fetchMarketData env rest

/-- Observable events of one fetch-loop execution: an HTTP request for a
symbol, or a sleep of `ms` milliseconds. -/
inductive Event where
  | request (s : Symbol)
  | delay (ms : ℕ)
deriving DecidableEq, Repr

/-- Event trace of the fetch loop.  The `setTimeout(..., 12000)` sleep on
line 55 sits inside the `try` block after the response handling, so it runs
after a well-formed or a no-data response, but a thrown error jumps to the
`catch` (line 56) and skips it. -/
def fetchTrace (env : Symbol → FetchOutcome) : List Symbol → List Event
  | [] => []
  | s :: rest =>
    match env s with
    | .ok _ _ => .request s :: .delay 12000 :: fetchTrace env rest
    | .noData => .request s :: .delay 12000 :: fetchTrace env rest
    | .err => .request s :: fetchTrace env rest

/-- State machine checking the pacing discipline: the Boolean argument is
true while a request has been issued and no delay of at least 12000 ms has
run since.  A new request while pending, or a trailing pending request,
violates the discipline. -/
def pacedAux : Bool → List Event → Bool
  | pending, [] => !pending
  | pending, Event.request _ :: tr => !pending && pacedAux true tr
  | pending, Event.delay ms :: tr =>
    if 12000 ≤ ms then pacedAux false tr else pacedAux pending tr

/-- Every request in the trace (the last one included) is followed by a
delay of at least 12000 ms before any subsequent request. -/
def paced (tr : List Event) : Bool := pacedAux false tr

/-- JavaScript numbers as far as the alert evaluator needs them: exact
finite rationals plus Infinity, -Infinity and NaN. -/
inductive JSNum where
  | fin (q : ℚ)
  | inf
  | negInf
  | nan
deriving DecidableEq, Repr

/-- JavaScript division of two finite numbers: division by zero yields a
signed infinity, 0/0 yields NaN. -/
def jsDiv (a b : ℚ) : JSNum :=
  if b = 0 then
    if 0 < a then .inf else if a < 0 then .negInf else .nan
  else .fin (a / b)

def jsMul100 : JSNum → JSNum
  | .fin q => .fin (q * 100)
  | .inf => .inf
  | .negInf => .negInf
  | .nan => .nan

/-- JavaScript `Math.abs` on the extended numbers. -/
def jsAbs : JSNum → JSNum
  | .fin q => .fin |q|
  | .inf => .inf
  | .negInf => .inf
  | .nan => .nan

/-- JavaScript `x >= t` for an extended `x` against a finite threshold:
every comparison against NaN is false, Infinity dominates. -/
def jsGe (a : JSNum) (t : ℚ) : Bool :=
  match a with
  | .fin q => decide (t ≤ q)
  | .inf => true
  | .negInf => false
  | .nan => false

/-- The change computation of line 71,
`((newPrice - oldPrice) / oldPrice) * 100`, in JavaScript semantics. -/
def jsChangePercent (oldPrice newPrice : ℚ) : JSNum :=
  jsMul100 (jsDiv (newPrice - oldPrice) oldPrice)

/-- JavaScript `x || y` where `x` is `map.get(symbol)` (possibly undefined)
and the values are numbers: undefined and 0 both fall through to `y`
(source line 174). -/
def jsOr (x : Option ℚ) (y : ℚ) : ℚ :=
  match x with
  | none => y
  | some p => if p = 0 then y else p

structure Portfolio where
  id : String
  owner_id : String
deriving DecidableEq, Repr

structure StockTransaction where
  portfolio_id : String
  symbol : Symbol
deriving DecidableEq, Repr

structure AlertThreshold where
  user_id : String
  symbol : Symbol
  threshold_percent : ℚ
deriving DecidableEq, Repr

/-- One `market_data` row ("Quote" in the spec), keyed by symbol. -/
structure Quote where
  symbol : Symbol
  price : ℚ
  change_percent : ℚ
  updated_at : ℕ
deriving DecidableEq, Repr

structure HistoricalPrice where
  symbol : Symbol
  price : ℚ
  close_price : ℚ
  recorded_at : ℕ
deriving DecidableEq, Repr

/-- A `notifications` row as the job inserts it (source lines 85-90); the
formatted message string is not modelled. -/
structure Notification where
  user_id : String
  symbol : Symbol
  type : String
deriving DecidableEq, Repr

/-- An `audit_logs` row as the job inserts it (source lines 203-209); the
`details` JSON carries the requested symbols and the updated count. -/
structure AuditEntry where
  user_id : String
  action : String
  resource_type : String
  details_symbols : List Symbol
  details_count : ℕ
  status_code : ℕ
deriving DecidableEq, Repr

/-- Read-only database tables consulted by the job. -/
structure Db where
  portfolios : List Portfolio
  transactions : List StockTransaction
  alert_thresholds : List AlertThreshold

/-- Tables the job writes.  `market_data` has one row per symbol (the
upsert's conflict target), modelled as a map from symbol to its row. -/
structure Store where
  market_data : Symbol → Option Quote
  historical_prices : List HistoricalPrice
  notifications : List Notification
  audit_logs : List AuditEntry

def emptyStore : Store :=
  { market_data := fun _ => none
    historical_prices := []
    notifications := []
    audit_logs := [] }

/-- The condition under which `checkPriceAlerts` inserts a notification
(source lines 71-83): the first threshold row for the user and symbol
exists and `Math.abs(changePercent) >= threshold.threshold_percent`. -/
def alertFires (db : Db) (userId : String) (symbol : Symbol)
    (oldPrice newPrice : ℚ) : Bool :=
  match db.alert_thresholds.filter
      (fun t => t.user_id == userId && t.symbol == symbol) with
  | [] => false
  | t :: _ => jsGe (jsAbs (jsChangePercent oldPrice newPrice)) t.threshold_percent

/-- The threshold alert evaluator (source lines 64-95): computes the change
percentage, looks up the user's thresholds for the symbol, and inserts one
`price_alert` notification when the first threshold is met. -/
def checkPriceAlerts (db : Db) (st : Store) (userId : String) (symbol : Symbol)
    (oldPrice newPrice : ℚ) : Store :=
  { st with
    notifications := st.notifications ++
      if alertFires db userId symbol oldPrice newPrice then
        [⟨userId, symbol, "price_alert"⟩]
      else [] }

/-- One evaluator invocation made by the handler loop, with the arguments
passed on line 199. -/
structure AlertCall where
  user_id : String
  symbol : Symbol
  oldPrice : ℚ
  newPrice : ℚ
deriving DecidableEq, Repr

/-- Insertion-order deduplication, as `[...new Set(array)]` produces
(source line 148): keeps the first occurrence of each element. -/
def uniqueFirst (l : List Symbol) : List Symbol :=
  l.foldl (fun acc s => if s ∈ acc then acc else acc ++ [s]) []

/-- Ids of the caller's portfolios (source lines 126-129). -/
def callerPortfolioIds (db : Db) (userId : String) : List String :=
  (db.portfolios.filter (fun p => p.owner_id == userId)).map Portfolio.id

/-- The distinct symbols of the caller's transactions (source lines
141-148). -/
def resolvedSymbols (db : Db) (userId : String) : List Symbol :=
  uniqueFirst
    ((db.transactions.filter
        (fun t => (callerPortfolioIds db userId).contains t.portfolio_id)).map
      StockTransaction.symbol)

/-- The snapshot of current prices read in one batch before the fetch
(source lines 160-167): the `market_data` rows whose symbol is in the
resolved set, as a map from symbol to price. -/
def currentPrices (st : Store) (syms : List Symbol) (s : Symbol) : Option ℚ :=
  if s ∈ syms then (st.market_data s).map Quote.price else none

/-- The per-result loop of the handler (source lines 173-200): for each
fetched quote, in order, read the old price from the snapshot (with the
`|| data.price` fallback), upsert the `market_data` row, append a
`historical_prices` row, and run the alert evaluator for the caller.
Returns the final store and the list of evaluator invocations made. -/
def runLoop (db : Db) (userId : String) (now : ℕ) (cp : Symbol → Option ℚ) :
    Store → List MarketDataUpdate → Store × List AlertCall
  | st, [] => (st, [])
  | st, d :: rest =>
    let oldPrice := jsOr (cp d.symbol) d.price
    let st1 : Store :=
      { st with
        market_data := fun s =>
          if s = d.symbol then some ⟨d.symbol, d.price, d.change_percent, now⟩
          else st.market_data s }
    let st2 : Store :=
      { st1 with
        historical_prices :=
          st1.historical_prices ++ [⟨d.symbol, d.price, d.price, now⟩] }
    let st3 := checkPriceAlerts db st2 userId d.symbol oldPrice d.price
    let r := runLoop db userId now cp st3 rest
    (r.1, ⟨userId, d.symbol, oldPrice, d.price⟩ :: r.2)

/-- Success responses of the handler: the two no-op bodies (source lines
134-137 and 151-154) and the full body of lines 211-222. -/
inductive Response where
  | noPortfolios
  | noSymbols
  | ok (updated : ℕ) (symbols : List Symbol) (note : String)
deriving DecidableEq, Repr

structure RunResult where
  response : Response
  store : Store
  alertCalls : List AlertCall

/-- The request handler (source lines 97-234) from the point where the
bearer token has been resolved to `userId`: resolve portfolios and symbols
(returning the no-op responses when either is empty), snapshot current
prices, fetch, run the per-result loop, insert one audit row, and build
the response.  `now` stands for the wall-clock timestamps taken during the
run. -/
def refreshHandler (db : Db) (st : Store) (userId : String) (now : ℕ)
    (env : Symbol → FetchOutcome) : RunResult :=
  if (callerPortfolioIds db userId).isEmpty then
    ⟨.noPortfolios, st, []⟩
  else if (resolvedSymbols db userId).isEmpty then
    ⟨.noSymbols, st, []⟩
  else
    let syms := resolvedSymbols db userId
    let md := fetchMarketData env syms
    let r := runLoop db userId now (currentPrices st syms) st md
    let st2 : Store :=
      { r.1 with
        audit_logs := r.1.audit_logs ++
          [⟨userId, "REFRESH_MARKET_DATA", "market_data", syms, md.length, 200⟩] }
    ⟨.ok md.length syms
      (if md.length < syms.length then
        "Some symbols could not be updated due to API availability"
      else "All symbols updated successfully"), st2, r.2⟩

/-! Concrete fixtures used to instantiate the theorems below. -/

/-- One caller `u` with one portfolio holding symbols A and B, no alert
thresholds. -/
def dbTwoSymbols : Db := ⟨[⟨"p1", "u"⟩], [⟨"p1", "A"⟩, ⟨"p1", "B"⟩], []⟩

/-- One caller `u` with one portfolio holding symbol A, no thresholds. -/
def dbOneSymbol : Db := ⟨[⟨"p1", "u"⟩], [⟨"p1", "A"⟩], []⟩

/-- As `dbOneSymbol` but with a configured threshold of 0 % on A. -/
def dbAlertZero : Db := ⟨[⟨"p1", "u"⟩], [⟨"p1", "A"⟩], [⟨"u", "A", 0⟩]⟩

/-- As `dbOneSymbol` but with a configured threshold of 5 % on A. -/
def dbAlertFive : Db := ⟨[⟨"p1", "u"⟩], [⟨"p1", "A"⟩], [⟨"u", "A", 5⟩]⟩

/-- Threshold table only: user `u` has a 5 % threshold on A. -/
def dbThreshold5 : Db := ⟨[], [], [⟨"u", "A", 5⟩]⟩

/-- Threshold table only: user `u` has a 5.01 % threshold on A. -/
def dbThreshold501 : Db := ⟨[], [], [⟨"u", "A", 501/100⟩]⟩

/-- A database in which the caller `u` owns no portfolio. -/
def dbNoPortfolios : Db := ⟨[], [], []⟩

/-- Two users each holding symbol A through their own portfolio; `u2` has
a 1 % threshold configured on A. -/
def dbTwoOwners : Db :=
  ⟨[⟨"p1", "u1"⟩, ⟨"p2", "u2"⟩], [⟨"p1", "A"⟩, ⟨"p2", "A"⟩], [⟨"u2", "A", 1⟩]⟩

/-- Provider behaviour: A returns a quote, every other symbol no data. -/
def envAOk : Symbol → FetchOutcome :=
  fun s => if s = "A" then .ok 100 1 else .noData

/-- Provider behaviour: B returns a quote, every other symbol no data. -/
def envBOnly : Symbol → FetchOutcome :=
  fun s => if s = "B" then .ok 7 1 else .noData

/-- Provider behaviour: A and C return quotes, everything else throws. -/
def envACOk : Symbol → FetchOutcome :=
  fun s => if s = "A" then .ok 1 2 else if s = "C" then .ok 3 4 else .err

/-- Provider behaviour: the request for A throws, all others succeed. -/
def envAErr : Symbol → FetchOutcome :=
  fun s => if s = "A" then .err else .ok 1 1

/-- Provider behaviour: A returns a quote whose price is 0. -/
def envAZero : Symbol → FetchOutcome :=
  fun s => if s = "A" then .ok 0 0 else .noData

/-! Helper lemmas about the fetch loop. -/

lemma fetchMarketData_map_symbol (env : Symbol → FetchOutcome) (l : List Symbol) :
    (fetchMarketData env l).map MarketDataUpdate.symbol =
      l.filter fun s => (env s).isOk := by
  induction l with
  | nil => rfl
  | cons s rest ih =>
    cases h : env s <;>
      simp [fetchMarketData, h, FetchOutcome.isOk, ih, List.filter_cons]

lemma fetchMarketData_length (env : Symbol → FetchOutcome) (l : List Symbol) :
    (fetchMarketData env l).length = (l.filter fun s => (env s).isOk).length := by
  rw [← fetchMarketData_map_symbol env l, List.length_map]

lemma env_of_mem_fetchMarketData (env : Symbol → FetchOutcome) (l : List Symbol)
    (d : MarketDataUpdate) (h : d ∈ fetchMarketData env l) :
    env d.symbol = .ok d.price d.change_percent := by
  induction l with
  | nil => cases h
  | cons s rest ih =>
    cases he : env s with
    | ok p c =>
      rw [fetchMarketData, he] at h
      rcases List.mem_cons.mp h with rfl | hmem
      · exact he
      · exact ih hmem
    | noData => rw [fetchMarketData, he] at h; exact ih h
    | err => rw [fetchMarketData, he] at h; exact ih h

lemma mem_fetchMarketData_of_ok (env : Symbol → FetchOutcome) (l : List Symbol)
    (s : Symbol) (p c : ℚ) (hs : s ∈ l) (hok : env s = .ok p c) :
    (⟨s, p, c⟩ : MarketDataUpdate) ∈ fetchMarketData env l := by
  induction l with
  | nil => cases hs
  | cons a rest ih =>
    rcases List.mem_cons.mp hs with rfl | hmem
    · rw [fetchMarketData, hok]; exact List.mem_cons_self _ _
    · cases he : env a with
      | ok q d => rw [fetchMarketData, he]; exact List.mem_cons_of_mem _ (ih hmem)
      | noData => rw [fetchMarketData, he]; exact ih hmem
      | err => rw [fetchMarketData, he]; exact ih hmem

lemma fetchTrace_paced_of_no_err (env : Symbol → FetchOutcome) (l : List Symbol)
    (h : ∀ s ∈ l, env s ≠ .err) : pacedAux false (fetchTrace env l) = true := by
  induction l with
  | nil => rfl
  | cons s rest ih =>
    have hrest : ∀ x ∈ rest, env x ≠ .err :=
      fun x hx => h x (List.mem_cons_of_mem _ hx)
    cases he : env s with
    | ok p c => simp [fetchTrace, he, pacedAux, ih hrest]
    | noData => simp [fetchTrace, he, pacedAux, ih hrest]
    | err => exact absurd he (h s (List.mem_cons_self _ _))

/-! Helper lemmas about the evaluator and the handler loop. -/

lemma checkPriceAlerts_market_data (db : Db) (st : Store) (u : String)
    (s : Symbol) (o n : ℚ) :
    (checkPriceAlerts db st u s o n).market_data = st.market_data := rfl

lemma checkPriceAlerts_audit_logs (db : Db) (st : Store) (u : String)
    (s : Symbol) (o n : ℚ) :
    (checkPriceAlerts db st u s o n).audit_logs = st.audit_logs := rfl

lemma checkPriceAlerts_notifications (db : Db) (st : Store) (u : String)
    (s : Symbol) (o n : ℚ) :
    (checkPriceAlerts db st u s o n).notifications =
      st.notifications ++
        if alertFires db u s o n then [⟨u, s, "price_alert"⟩] else [] := rfl

lemma runLoop_fst_audit_logs (db : Db) (u : String) (now : ℕ)
    (cp : Symbol → Option ℚ) (md : List MarketDataUpdate) :
    ∀ st : Store, (runLoop db u now cp st md).1.audit_logs = st.audit_logs := by
  induction md with
  | nil => intro st; rfl
  | cons d rest ih =>
    intro st
    show (runLoop db u now cp _ rest).1.audit_logs = st.audit_logs
    rw [ih]
    rfl

lemma runLoop_snd (db : Db) (u : String) (now : ℕ)
    (cp : Symbol → Option ℚ) (md : List MarketDataUpdate) :
    ∀ st : Store, (runLoop db u now cp st md).2 =
      md.map fun d =>
        (⟨u, d.symbol, jsOr (cp d.symbol) d.price, d.price⟩ : AlertCall) := by
  induction md with
  | nil => intro st; rfl
  | cons d rest ih =>
    intro st
    show (⟨u, d.symbol, _, d.price⟩ : AlertCall) :: (runLoop db u now cp _ rest).2 = _
    rw [ih]
    rfl

lemma runLoop_fst_notifications (db : Db) (u : String) (now : ℕ)
    (cp : Symbol → Option ℚ) (md : List MarketDataUpdate) :
    ∀ st : Store, (runLoop db u now cp st md).1.notifications =
      st.notifications ++
        md.filterMap fun d =>
          if alertFires db u d.symbol (jsOr (cp d.symbol) d.price) d.price then
            some ⟨u, d.symbol, "price_alert"⟩
          else none := by
  induction md with
  | nil => intro st; simp [runLoop]
  | cons d rest ih =>
    intro st
    show (runLoop db u now cp _ rest).1.notifications = _
    rw [ih, checkPriceAlerts_notifications]
    show st.notifications ++ _ ++ _ = _
    cases hf : alertFires db u d.symbol (jsOr (cp d.symbol) d.price) d.price <;>
      simp [List.filterMap_cons, hf]

lemma runLoop_fst_market_data (db : Db) (u : String) (now : ℕ)
    (cp : Symbol → Option ℚ) (s : Symbol) (p c : ℚ) (md : List MarketDataUpdate) :
    ∀ st : Store, (∀ d ∈ md, d.symbol = s → d = ⟨s, p, c⟩) →
      (runLoop db u now cp st md).1.market_data s =
        if (⟨s, p, c⟩ : MarketDataUpdate) ∈ md then some ⟨s, p, c, now⟩
        else st.market_data s := by
  induction md with
  | nil => intro st _; simp [runLoop]
  | cons d rest ih =>
    intro st huniq
    have hrest : ∀ x ∈ rest, x.symbol = s → x = ⟨s, p, c⟩ :=
      fun x hx => huniq x (List.mem_cons_of_mem _ hx)
    show (runLoop db u now cp _ rest).1.market_data s = _
    rw [ih _ hrest]
    by_cases hds : d.symbol = s
    · have hd : d = ⟨s, p, c⟩ := huniq d (List.mem_cons_self _ _) hds
      subst hd
      by_cases hmem : (⟨s, p, c⟩ : MarketDataUpdate) ∈ rest <;>
        simp [hmem, checkPriceAlerts_market_data]
    · have hne : (⟨s, p, c⟩ : MarketDataUpdate) ≠ d := by
        intro hh; exact hds (by rw [← hh])
      by_cases hmem : (⟨s, p, c⟩ : MarketDataUpdate) ∈ rest
      · have hmc : (⟨s, p, c⟩ : MarketDataUpdate) ∈ d :: rest :=
          List.mem_cons_of_mem _ hmem
        simp [hmem, hmc, checkPriceAlerts_market_data]
      · have hmc : (⟨s, p, c⟩ : MarketDataUpdate) ∉ d :: rest := by
          simp [List.mem_cons, hne, hmem]
        simp [hmem, hmc, checkPriceAlerts_market_data]
        intro hh
        exact absurd hh.symm hds

lemma resolvedSymbols_eq_nil (db : Db) (uid : String)
    (h : (callerPortfolioIds db uid).isEmpty = true) :
    resolvedSymbols db uid = [] := by
  have h0 : callerPortfolioIds db uid = [] := List.isEmpty_iff.mp h
  simp [resolvedSymbols, h0, uniqueFirst]

lemma refreshHandler_alertCalls (db : Db) (st : Store) (uid : String) (now : ℕ)
    (env : Symbol → FetchOutcome) :
    (refreshHandler db st uid now env).alertCalls =
      (fetchMarketData env (resolvedSymbols db uid)).map fun d =>
        (⟨uid, d.symbol,
          jsOr (currentPrices st (resolvedSymbols db uid) d.symbol) d.price,
          d.price⟩ : AlertCall) := by
  by_cases h1 : (callerPortfolioIds db uid).isEmpty
  · simp [refreshHandler, h1, resolvedSymbols_eq_nil db uid h1, fetchMarketData]
  · by_cases h2 : (resolvedSymbols db uid).isEmpty
    · have h0 : resolvedSymbols db uid = [] := List.isEmpty_iff.mp h2
      simp [refreshHandler, h1, h2, h0, fetchMarketData]
    · simp [refreshHandler, h1, h2, runLoop_snd]

lemma refreshHandler_notifications (db : Db) (st : Store) (uid : String)
    (now : ℕ) (env : Symbol → FetchOutcome) :
    (refreshHandler db st uid now env).store.notifications =
      st.notifications ++
        (fetchMarketData env (resolvedSymbols db uid)).filterMap fun d =>
          if alertFires db uid d.symbol
              (jsOr (currentPrices st (resolvedSymbols db uid) d.symbol) d.price)
              d.price then
            some ⟨uid, d.symbol, "price_alert"⟩
          else none := by
  by_cases h1 : (callerPortfolioIds db uid).isEmpty
  · simp [refreshHandler, h1, resolvedSymbols_eq_nil db uid h1, fetchMarketData]
  · by_cases h2 : (resolvedSymbols db uid).isEmpty
    · simp [refreshHandler, h1, h2, List.isEmpty_iff.mp h2, fetchMarketData]
    · simp [refreshHandler, h1, h2, runLoop_fst_notifications]

lemma alertFires_self (db : Db) (u : String) (s : Symbol) (p : ℚ)
    (hpos : ∀ t ∈ db.alert_thresholds,
      t.user_id = u → t.symbol = s → 0 < t.threshold_percent) :
    alertFires db u s p p = false := by
  unfold alertFires
  cases hf : db.alert_thresholds.filter
      (fun t => t.user_id == u && t.symbol == s) with
  | nil => rfl
  | cons t rest =>
    have ht : t ∈ db.alert_thresholds.filter
        (fun t => t.user_id == u && t.symbol == s) := by
      rw [hf]; exact List.mem_cons_self _ _
    have hmem := List.mem_of_mem_filter ht
    have hprop := List.of_mem_filter ht
    have hu : t.user_id = u ∧ t.symbol = s := by simpa using hprop
    have h0 := hpos t hmem hu.1 hu.2
    have hchg : jsChangePercent p p = if p = 0 then JSNum.nan else JSNum.fin 0 := by
      unfold jsChangePercent jsDiv
      by_cases hp : p = 0 <;> simp [hp, jsMul100, sub_self]
    rw [hchg]
    by_cases hp : p = 0 <;> simp [hp, jsAbs, jsGe, not_le.mpr h0]

/-- C1: for every symbol whose fetch fails or returns no usable data the
stored Quote row is left entirely unchanged by the run, and every symbol
of the run with a successfully parsed quote has its Quote row replaced
with the new price, change percent and timestamp. -/
theorem C1_quote_row_stale_but_present (db : Db) (st : Store) (uid : String)
    (now : ℕ) (env : Symbol → FetchOutcome) (s : Symbol) :
    ((env s = .noData ∨ env s = .err) →
      (refreshHandler db st uid now env).store.market_data s = st.market_data s)
    ∧ (∀ p c, env s = .ok p c → s ∈ resolvedSymbols db uid →
      (refreshHandler db st uid now env).store.market_data s =
        some ⟨s, p, c, now⟩) := by
  by_cases h1 : (callerPortfolioIds db uid).isEmpty
  · refine ⟨fun _ => by simp [refreshHandler, h1], fun p c _ hs => ?_⟩
    rw [resolvedSymbols_eq_nil db uid h1] at hs
    cases hs
  · by_cases h2 : (resolvedSymbols db uid).isEmpty
    · refine ⟨fun _ => by simp [refreshHandler, h1, h2], fun p c _ hs => ?_⟩
      rw [List.isEmpty_iff.mp h2] at hs
      cases hs
    · constructor
      · intro hfail
        have huniq : ∀ d ∈ fetchMarketData env (resolvedSymbols db uid),
            d.symbol = s → d = ⟨s, 0, 0⟩ := by
          intro d hd hds
          have hok := env_of_mem_fetchMarketData env _ d hd
          rw [hds] at hok
          rcases hfail with hf | hf <;> rw [hf] at hok <;> cases hok
        have hnm : (⟨s, 0, 0⟩ : MarketDataUpdate) ∉
            fetchMarketData env (resolvedSymbols db uid) := by
          intro hm
          have hok := env_of_mem_fetchMarketData env _ _ hm
          rcases hfail with hf | hf <;> rw [hf] at hok <;> cases hok
        simp only [refreshHandler, h1, h2]
        simp [runLoop_fst_market_data db uid now _ s 0 0 _ st huniq, hnm]
      · intro p c hok hs
        have huniq : ∀ d ∈ fetchMarketData env (resolvedSymbols db uid),
            d.symbol = s → d = ⟨s, p, c⟩ := by
          intro d hd hds
          have hok2 := env_of_mem_fetchMarketData env _ d hd
          rw [hds, hok] at hok2
          obtain ⟨ds, dp, dc⟩ := d
          simp only at hds
          injection hok2 with hp hc
          subst hds hp hc
          rfl
        have hmem := mem_fetchMarketData_of_ok env _ s p c hs hok
        simp only [refreshHandler, h1, h2]
        simp [runLoop_fst_market_data db uid now _ s p c _ st huniq, hmem]

/-- C1 witness: in a concrete run over symbols A and B, where A returns no
data and B returns a quote, the Quote row of A is untouched and the Quote
row of B is replaced. -/
theorem C1_witness :
    (refreshHandler dbTwoSymbols emptyStore "u" 5 envBOnly).store.market_data "A" =
      emptyStore.market_data "A"
    ∧ (refreshHandler dbTwoSymbols emptyStore "u" 5 envBOnly).store.market_data "B" =
      some ⟨"B", 7, 1, 5⟩ :=
  ⟨(C1_quote_row_stale_but_present dbTwoSymbols emptyStore "u" 5 envBOnly "A").1
      (Or.inl (by decide)),
   (C1_quote_row_stale_but_present dbTwoSymbols emptyStore "u" 5 envBOnly "B").2
      7 1 (by decide) (by decide)⟩

/-- C2: the fetcher is total (modelling that the per-symbol try/catch lets
no exception escape), returns exactly the symbols that parsed
successfully, in input order, with failed symbols absent, and each
returned quote carries the parsed values; a failed symbol removes nothing
that comes after it. -/
theorem C2_fetch_skips_failures_keeps_order (env : Symbol → FetchOutcome)
    (symbols : List Symbol) :
    (fetchMarketData env symbols).map MarketDataUpdate.symbol =
      symbols.filter (fun s => (env s).isOk)
    ∧ ∀ d ∈ fetchMarketData env symbols,
        env d.symbol = .ok d.price d.change_percent :=
  ⟨fetchMarketData_map_symbol env symbols,
   fun d hd => env_of_mem_fetchMarketData env symbols d hd⟩

/-- C2 witness: with A and C succeeding and B throwing, the result lists
exactly A then C, and the A entry carries its parsed quote. -/
theorem C2_witness :
    (fetchMarketData envACOk ["A", "B", "C"]).map MarketDataUpdate.symbol =
      ["A", "C"]
    ∧ envACOk "A" = .ok 1 2 :=
  ⟨by decide,
   (C2_fetch_skips_failures_keeps_order envACOk ["A", "B", "C"]).2
      ⟨"A", 1, 2⟩ (by decide)⟩

/-- C3 counterexample: the claim says every request, a failing one
included, is followed by the fixed delay before the next request; but a
thrown request-level error jumps to the catch block and skips the delay,
so with A throwing and B next, the two requests are adjacent in the trace
with no delay between them. -/
theorem C3_counterexample :
    paced (fetchTrace envAErr ["A", "B"]) = false
    ∧ fetchTrace envAErr ["A", "B"] =
      [.request "A", .request "B", .delay 12000] := by decide

/-- C3 amended: the fixed 12-second delay follows every request whose
fetch and parse do not throw (well-formed and no-data responses alike,
and also after the last symbol); a request that throws is not followed by
the delay.  Hence the pacing discipline holds on every trace in which no
symbol's request throws. -/
theorem C3_delay_only_without_throw (env : Symbol → FetchOutcome)
    (symbols : List Symbol) (h : ∀ s ∈ symbols, env s ≠ .err) :
    paced (fetchTrace env symbols) = true :=
  fetchTrace_paced_of_no_err env symbols h

/-- C3 witness: a two-symbol run with one quote and one no-data response
is correctly paced. -/
theorem C3_witness : paced (fetchTrace envAOk ["A", "B"]) = true :=
  C3_delay_only_without_throw envAOk ["A", "B"] (by decide)

/-- C4 counterexample: the claim says that on first observation of a
symbol no Notification is created regardless of threshold configuration;
but `alert_thresholds.threshold_percent` is unconstrained and with a
configured threshold of 0 the handler fires on the zero change of a first
observation, since `Math.abs(0) >= 0` holds. -/
theorem C4_counterexample :
    emptyStore.market_data "A" = none
    ∧ (refreshHandler dbAlertZero emptyStore "u" 0 envAOk).store.notifications =
      [⟨"u", "A", "price_alert"⟩] := by
  refine ⟨rfl, ?_⟩
  norm_num [refreshHandler, callerPortfolioIds, resolvedSymbols, uniqueFirst,
    currentPrices, fetchMarketData, runLoop, checkPriceAlerts, alertFires,
    jsChangePercent, jsDiv, jsMul100, jsAbs, jsGe, jsOr, dbAlertZero, envAOk,
    emptyStore]

/-- C4 amended: for a symbol with no prior Quote row, the first successful
fetch uses the new price as the old price, so the computed change is zero
(or NaN when the price itself is 0) and no Notification for that symbol is
created provided every threshold the user configured for it is positive;
with a threshold of 0 or less (and a nonzero price) a Notification is
created, since the inclusive comparison accepts a zero change. -/
theorem C4_first_observation_no_alert (db : Db) (st : Store) (uid : String)
    (now : ℕ) (env : Symbol → FetchOutcome) (s : Symbol)
    (hnone : st.market_data s = none)
    (hpos : ∀ t ∈ db.alert_thresholds,
      t.user_id = uid → t.symbol = s → 0 < t.threshold_percent) :
    (refreshHandler db st uid now env).store.notifications.filter
        (fun n => n.symbol == s) =
      st.notifications.filter (fun n => n.symbol == s) := by
  have hcp : currentPrices st (resolvedSymbols db uid) s = none := by
    simp [currentPrices, hnone]
  rw [refreshHandler_notifications, List.filter_append]
  have hnil : (List.filterMap
      (fun d => if alertFires db uid d.symbol
          (jsOr (currentPrices st (resolvedSymbols db uid) d.symbol) d.price)
          d.price then
        some (⟨uid, d.symbol, "price_alert"⟩ : Notification)
      else none)
      (fetchMarketData env (resolvedSymbols db uid))).filter
      (fun n => n.symbol == s) = [] := by
    rw [List.filter_eq_nil_iff]
    intro n hn
    rw [List.mem_filterMap] at hn
    obtain ⟨d, hd, hfd⟩ := hn
    by_cases hfire : alertFires db uid d.symbol
        (jsOr (currentPrices st (resolvedSymbols db uid) d.symbol) d.price)
        d.price
    · rw [if_pos hfire] at hfd
      injection hfd with hfd
      subst hfd
      simp only [beq_iff_eq]
      intro hds
      rw [hds, hcp] at hfire
      have hno : alertFires db uid s d.price d.price = false :=
        alertFires_self db uid s d.price hpos
      rw [show jsOr none d.price = d.price from rfl] at hfire
      rw [hno] at hfire
      cases hfire
    · rw [if_neg hfire] at hfd
      cases hfd
  rw [hnil, List.append_nil]

/-- C4 witness: a first observation of A with a configured positive
threshold of 5 % creates no notification for A. -/
theorem C4_witness :
    (refreshHandler dbAlertFive emptyStore "u" 0 envAOk).store.notifications.filter
        (fun n => n.symbol == "A") =
      emptyStore.notifications.filter (fun n => n.symbol == "A") :=
  C4_first_observation_no_alert dbAlertFive emptyStore "u" 0 envAOk "A" rfl
    (by decide)

/-- C5: the alert comparison is inclusive: with old price 100 and new
price 105 (a 5.00 % change) a threshold of exactly 5.00 creates a
Notification, while a threshold of 5.01 creates none. -/
theorem C5_threshold_boundary_inclusive :
    (checkPriceAlerts dbThreshold5 emptyStore "u" "A" 100 105).notifications =
      [⟨"u", "A", "price_alert"⟩]
    ∧ (checkPriceAlerts dbThreshold501 emptyStore "u" "A" 100 105).notifications =
      [] := by
  constructor <;>
    norm_num [checkPriceAlerts, alertFires, jsChangePercent, jsDiv, jsMul100,
      jsAbs, jsGe, dbThreshold5, dbThreshold501, emptyStore]

/-- C6 counterexample: the claim says the evaluator guards against a zero
old price and creates no Notification; but the code divides by the old
price unguarded, the change comes out as Infinity, the inclusive
comparison accepts it, and a Notification IS created. -/
theorem C6_counterexample :
    (checkPriceAlerts dbThreshold5 emptyStore "u" "A" 0 100).notifications =
      [⟨"u", "A", "price_alert"⟩] := by
  norm_num [checkPriceAlerts, alertFires, jsChangePercent, jsDiv, jsMul100,
    jsAbs, jsGe, dbThreshold5, emptyStore]

/-- C6 amended: the evaluator does not guard against a zero old price:
with old price 0 and any nonzero new price the computed change is a signed
Infinity, so for a user with a threshold row a Notification is created for
every threshold value; only when old and new are both 0 does the NaN
change make the comparison fail, creating no Notification. -/
theorem C6_zero_old_price_fires (tp newPrice : ℚ) (u : String) (s : Symbol)
    (st : Store) (h : newPrice ≠ 0) :
    (checkPriceAlerts ⟨[], [], [⟨u, s, tp⟩]⟩ st u s 0 newPrice).notifications =
      st.notifications ++ [⟨u, s, "price_alert"⟩]
    ∧ (checkPriceAlerts ⟨[], [], [⟨u, s, tp⟩]⟩ st u s 0 0).notifications =
      st.notifications := by
  have hfilter : ([⟨u, s, tp⟩] : List AlertThreshold).filter
      (fun t => t.user_id == u && t.symbol == s) = [⟨u, s, tp⟩] := by simp
  constructor
  · rw [checkPriceAlerts_notifications]
    have hfire : alertFires ⟨[], [], [⟨u, s, tp⟩]⟩ u s 0 newPrice = true := by
      unfold alertFires
      rw [show Db.alert_thresholds ⟨[], [], [⟨u, s, tp⟩]⟩ =
        [⟨u, s, tp⟩] from rfl, hfilter]
      unfold jsChangePercent jsDiv
      rw [sub_zero, if_pos rfl]
      rcases lt_or_gt_of_ne h with hlt | hgt
      · rw [if_neg (not_lt.mpr hlt.le), if_pos hlt]
        rfl
      · rw [if_pos hgt]
        rfl
    rw [hfire]
    simp
  · rw [checkPriceAlerts_notifications]
    have hfire : alertFires ⟨[], [], [⟨u, s, tp⟩]⟩ u s 0 0 = false := by
      unfold alertFires
      rw [show Db.alert_thresholds ⟨[], [], [⟨u, s, tp⟩]⟩ =
        [⟨u, s, tp⟩] from rfl, hfilter]
      unfold jsChangePercent jsDiv
      rw [sub_zero, if_pos rfl, if_neg (lt_irrefl 0), if_neg (lt_irrefl 0)]
      rfl
    rw [hfire]
    simp

/-- C6 witness: with a 5 % threshold, old price 0 and new price 100, a
Notification is created, and with old and new both 0 none is. -/
theorem C6_witness :
    (checkPriceAlerts ⟨[], [], [⟨"u", "A", 5⟩]⟩ emptyStore "u" "A" 0 100).notifications =
      emptyStore.notifications ++ [⟨"u", "A", "price_alert"⟩]
    ∧ (checkPriceAlerts ⟨[], [], [⟨"u", "A", 5⟩]⟩ emptyStore "u" "A" 0 0).notifications =
      emptyStore.notifications :=
  C6_zero_old_price_fires 5 100 "u" "A" emptyStore (by norm_num)

/-- C7 counterexample: the claim says every invocation returning a success
response, the no-op paths included, writes exactly one AuditEntry; but the
no-portfolios path returns its success response before the audit insert is
reached and writes none. -/
theorem C7_counterexample :
    (refreshHandler dbNoPortfolios emptyStore "u" 0 envAOk).response =
      .noPortfolios
    ∧ (refreshHandler dbNoPortfolios emptyStore "u" 0 envAOk).store.audit_logs =
      [] := by decide

/-- C7 amended: only invocations that reach the fetch phase (those whose
success response carries the updated count) write an AuditEntry, and those
write exactly one, recording the requested symbols, the updated count and
status 200, whether or not every symbol succeeded; the two no-op success
paths (no portfolios, no symbols) write none. -/
theorem C7_audit_only_after_fetch_phase (db : Db) (st : Store) (uid : String)
    (now : ℕ) (env : Symbol → FetchOutcome) :
    ((refreshHandler db st uid now env).response = .noPortfolios ∨
        (refreshHandler db st uid now env).response = .noSymbols →
      (refreshHandler db st uid now env).store.audit_logs = st.audit_logs)
    ∧ (∀ u sy nt, (refreshHandler db st uid now env).response = .ok u sy nt →
      (refreshHandler db st uid now env).store.audit_logs =
        st.audit_logs ++
          [⟨uid, "REFRESH_MARKET_DATA", "market_data", sy, u, 200⟩]) := by
  by_cases h1 : (callerPortfolioIds db uid).isEmpty
  · refine ⟨fun _ => by simp [refreshHandler, h1], fun u sy nt h => ?_⟩
    simp [refreshHandler, h1] at h
  · by_cases h2 : (resolvedSymbols db uid).isEmpty
    · refine ⟨fun _ => by simp [refreshHandler, h1, h2], fun u sy nt h => ?_⟩
      simp [refreshHandler, h1, h2] at h
    · constructor
      · intro hcase
        rcases hcase with hr | hr <;> simp [refreshHandler, h1, h2] at hr
      · intro u sy nt h
        simp only [refreshHandler, h1, h2] at h ⊢
        simp only [Bool.false_eq_true, if_false] at h ⊢
        rw [Response.ok.injEq] at h
        obtain ⟨hu, hsy, hnt⟩ := h
        subst hu hsy
        simp [runLoop_fst_audit_logs]

/-- C7 witness: the no-portfolios success path leaves the audit log
untouched, while a run reaching the fetch phase appends exactly one entry
with the requested symbols, the updated count and status 200 even though
one of its two symbols failed. -/
theorem C7_witness :
    (refreshHandler dbNoPortfolios emptyStore "u" 0 envAOk).store.audit_logs =
      emptyStore.audit_logs
    ∧ (refreshHandler dbTwoSymbols emptyStore "u" 0 envAOk).store.audit_logs =
      emptyStore.audit_logs ++
        [⟨"u", "REFRESH_MARKET_DATA", "market_data", ["A", "B"], 1, 200⟩] :=
  ⟨(C7_audit_only_after_fetch_phase dbNoPortfolios emptyStore "u" 0 envAOk).1
      (Or.inl (by decide)),
   (C7_audit_only_after_fetch_phase dbTwoSymbols emptyStore "u" 0 envAOk).2
      1 ["A", "B"] "Some symbols could not be updated due to API availability"
      (by decide)⟩

/-- C8: whenever the run reaches the fetch phase, the response's updated
count equals the number of successfully fetched symbols, its symbols list
is the full originally requested set, and its note is the partial-failure
message exactly when the updated count is below the requested count,
otherwise the all-updated message. -/
theorem C8_response_reports (db : Db) (st : Store) (uid : String) (now : ℕ)
    (env : Symbol → FetchOutcome) :
    ∀ u sy nt, (refreshHandler db st uid now env).response = .ok u sy nt →
      u = ((resolvedSymbols db uid).filter fun s => (env s).isOk).length
      ∧ sy = resolvedSymbols db uid
      ∧ (nt = "Some symbols could not be updated due to API availability" ↔
          u < sy.length)
      ∧ (¬ u < sy.length → nt = "All symbols updated successfully") := by
  intro u sy nt h
  by_cases h1 : (callerPortfolioIds db uid).isEmpty
  · simp [refreshHandler, h1] at h
  · by_cases h2 : (resolvedSymbols db uid).isEmpty
    · simp [refreshHandler, h1, h2] at h
    · simp only [refreshHandler, h1, h2] at h
      simp only [Bool.false_eq_true, if_false] at h
      rw [Response.ok.injEq] at h
      obtain ⟨hu, hsy, hnt⟩ := h
      subst hu hsy hnt
      refine ⟨fetchMarketData_length env _, rfl, ?_, ?_⟩
      · by_cases hc : (fetchMarketData env (resolvedSymbols db uid)).length <
            (resolvedSymbols db uid).length
        · simp [hc]
        · simp [hc]
      · intro hc
        simp [hc]

/-- C8 witness: a run over requested symbols A and B in which B fails
reports updated = 1 (the successful fetch count), symbols = the full
requested list, and the partial-failure note. -/
theorem C8_witness :
    1 = ((resolvedSymbols dbTwoSymbols "u").filter fun s => (envAOk s).isOk).length
    ∧ (["A", "B"] : List Symbol) = resolvedSymbols dbTwoSymbols "u"
    ∧ ("Some symbols could not be updated due to API availability" =
        "Some symbols could not be updated due to API availability" ↔
        1 < (["A", "B"] : List Symbol).length)
    ∧ (¬ 1 < (["A", "B"] : List Symbol).length →
        "Some symbols could not be updated due to API availability" =
        "All symbols updated successfully") :=
  C8_response_reports dbTwoSymbols emptyStore "u" 0 envAOk 1 ["A", "B"]
    "Some symbols could not be updated due to API availability" (by decide)

/-- C9 counterexample: the claim says the evaluator runs once per (user,
symbol) for every portfolio owner holding the symbol; but in a run where
two users hold A and user u2 even has a threshold configured, the handler
invoked by u1 calls the evaluator only with u1's id — no invocation for u2
is made. -/
theorem C9_counterexample :
    (refreshHandler dbTwoOwners emptyStore "u1" 0 envAOk).alertCalls =
      [⟨"u1", "A", 100, 100⟩]
    ∧ (refreshHandler dbTwoOwners emptyStore "u1" 0 envAOk).alertCalls.filter
        (fun c => c.user_id == "u2") = [] := by decide

/-- C9 amended: a single run invokes the threshold evaluator once per
successfully fetched symbol, always with the invoking caller's user id
(and the snapshot old price with the new-price fallback); other users
holding the same symbol are not evaluated in that run — they are only
evaluated by runs they invoke themselves. -/
theorem C9_alerts_evaluated_for_caller_only (db : Db) (st : Store)
    (uid : String) (now : ℕ) (env : Symbol → FetchOutcome) :
    (refreshHandler db st uid now env).alertCalls =
      (fetchMarketData env (resolvedSymbols db uid)).map fun d =>
        (⟨uid, d.symbol,
          jsOr (currentPrices st (resolvedSymbols db uid) d.symbol) d.price,
          d.price⟩ : AlertCall) :=
  refreshHandler_alertCalls db st uid now env

/-- C10: on the orchestrator path the `|| data.price` fallback replaces a
missing or zero stored price by the newly fetched price, so an evaluator
invocation with old price 0 can only happen when the new price is also 0 —
the division by zero with a nonzero numerator is unreachable from the
handler. -/
theorem C10_zero_old_price_unreachable (db : Db) (st : Store) (uid : String)
    (now : ℕ) (env : Symbol → FetchOutcome) :
    ∀ c ∈ (refreshHandler db st uid now env).alertCalls,
      c.oldPrice = 0 → c.newPrice = 0 := by
  intro c hc h0
  rw [refreshHandler_alertCalls] at hc
  rw [List.mem_map] at hc
  obtain ⟨d, hd, hcd⟩ := hc
  subst hcd
  simp only at h0 ⊢
  cases hcp : currentPrices st (resolvedSymbols db uid) d.symbol with
  | none => rw [hcp] at h0; exact h0
  | some q =>
    rw [hcp] at h0
    simp only [jsOr] at h0
    by_cases hq : q = 0
    · rw [if_pos hq] at h0; exact h0
    · rw [if_neg hq] at h0; exact absurd h0 hq

/-- C10 witness: in a run where A's first observed price is 0, the
evaluator invocation with old price 0 indeed has new price 0. -/
theorem C10_witness : (AlertCall.mk "u" "A" 0 0).newPrice = 0 :=
  C10_zero_old_price_unreachable dbOneSymbol emptyStore "u" 0 envAZero
    ⟨"u", "A", 0, 0⟩ (by decide) rfl

end StockManagement
